import Mathlib

/-!
Shallow embedding of the ReliableUDP packet codec (`src/packet.rs`) and the
server handshake step from `examples/echo_server.rs`.

Machine integers are modelled as `Nat` with explicit truncation: `u16`
wrapping addition is addition followed by `% 65536`, `as u16` casts are
`% 65536`, byte extraction is `/ 2^k % 256`.  Byte buffers are `List Nat`
whose entries are byte values.  Fallible operations return `Except`/`Option`.
-/

namespace RUDP

/-- Packet type discriminants, `PType` in `packet.rs` (`#[repr(u8)]`, Syn = 1). -/
inductive PType where
  | Syn
  | SynAck
  | Ack
  | Psh
  | Fin
deriving DecidableEq

/-- Numeric value of a `PType` (`ptype as u8` / `ptype as u16` in the source). -/
def PType.toNat : PType → Nat
  | .Syn => 1
  | .SynAck => 2
  | .Ack => 3
  | .Psh => 4
  | .Fin => 5

/-- The `Header` struct of `packet.rs`: `seq, ack : u32`, `header_checksum,
checksum : u16` modelled as `Nat`. -/
structure Header where
  seq : Nat
  ack : Nat
  ptype : PType
  header_checksum : Nat
  checksum : Nat
deriving DecidableEq

/-- Parse errors from `errors.rs` as used by `Header::parse`
(the source spells the unknown-type error `UknownPType`). -/
inductive ParseError where
  | TooSmallPacket
  | TooBigPacket (len : Nat)
  | UknownPType (value : Nat)
deriving DecidableEq

def HEADER_SIZE : Nat := 14

def MAX_PACKET_SIZE : Nat := 65507

/-- `u16` wrapping addition: `checksum += x` on `u16` values. -/
def wadd (a b : Nat) : Nat := (a + b) % 65536

/-- Truncation to 16 bits, the `as u16` cast. -/
def w16 (n : Nat) : Nat := n % 65536

/-- `u32::from_be_bytes` on four bytes. -/
def u32_from_be (b0 b1 b2 b3 : Nat) : Nat := ((b0 * 256 + b1) * 256 + b2) * 256 + b3

/-- `u16::from_be_bytes` on two bytes. -/
def u16_from_be (b0 b1 : Nat) : Nat := b0 * 256 + b1

/-- `u32::to_be_bytes`. -/
def u32_to_be (n : Nat) : List Nat :=
  [n / 16777216 % 256, n / 65536 % 256, n / 256 % 256, n % 256]

/-- `u16::to_be_bytes`. -/
def u16_to_be (n : Nat) : List Nat := [n / 256 % 256, n % 256]

/-- The `match data[9]` arm of `Header::parse`: decode a byte into a `PType`
(the mapping Syn=1, SynAck=2, Ack=3, Psh=4, Fin=5), `none` on any other byte. -/
def ptype_of_byte (n : Nat) : Option PType :=
  if n = 1 then some .Syn
  else if n = 2 then some .SynAck
  else if n = 3 then some .Ack
  else if n = 4 then some .Psh
  else if n = 5 then some .Fin
  else none

/-- `Header::parse`.  Note: on an unknown type byte the source constructs the
error from `data[8]` (the padding byte), not from the scrutinised `data[9]`. -/
def Header.parse (data : List Nat) : Except ParseError Header :=
  if data.length < HEADER_SIZE then
    .error .TooSmallPacket
  else if data.length > MAX_PACKET_SIZE then
    .error (.TooBigPacket data.length)
  else
    let seq := u32_from_be (data.getD 0 0) (data.getD 1 0) (data.getD 2 0) (data.getD 3 0)
    let ack := u32_from_be (data.getD 4 0) (data.getD 5 0) (data.getD 6 0) (data.getD 7 0)
    match ptype_of_byte (data.getD 9 0) with
    | none => .error (.UknownPType (data.getD 8 0))
    | some ptype =>
        .ok { seq := seq
              ack := ack
              ptype := ptype
              header_checksum := u16_from_be (data.getD 10 0) (data.getD 11 0)
              checksum := u16_from_be (data.getD 12 0) (data.getD 13 0) }

/-- `Header::calculate_header_checksum`: wrapping 16-bit sum of the two
halves of `seq`, the two halves of `ack`, and the packet type. -/
def Header.calculate_header_checksum (seq ack : Nat) (ptype : PType) : Nat :=
  let checksum := 0
  let checksum := wadd checksum (w16 (seq / 65536))
  let checksum := wadd checksum (w16 seq)
  let checksum := wadd checksum (w16 (ack / 65536))
  let checksum := wadd checksum (w16 ack)
  let checksum := wadd checksum (w16 ptype.toNat)
  checksum

/-- One `for index in (lo..n).step_by(2)` loop of `Header::calculate_checksum`:
starting at `idx`, while `idx < n`, add `(dt[idx] as u16) << 8` then
`dt[idx + 1] as u16` with wrapping addition, and step `idx` by 2. -/
def pairLoop (dt : List Nat) (c : Nat) (idx n : Nat) : Nat :=
  if idx < n then
    pairLoop dt (wadd (wadd c (w16 (dt.getD idx 0 * 256))) (dt.getD (idx + 1) 0)) (idx + 2) n
  else c
termination_by n - idx
decreasing_by omega

/-- `Header::calculate_checksum`: seed the accumulator with
`header_checksum`, add the seq/ack/ptype halves, then fold the payload:
pairs over the whole slice when its length is even, otherwise pairs over
`len - 1` bytes followed by the lone final byte shifted into the high half. -/
def Header.calculate_checksum (seq ack : Nat) (ptype : PType) (header_checksum : Nat)
    (data : Option (List Nat)) : Nat :=
  let checksum := header_checksum
  let checksum := wadd checksum (w16 (seq / 65536))
  let checksum := wadd checksum (w16 seq)
  let checksum := wadd checksum (w16 (ack / 65536))
  let checksum := wadd checksum (w16 ack)
  let checksum := wadd checksum (w16 ptype.toNat)
  match data with
  | none => checksum
  | some dt =>
      if dt.length % 2 = 0 then
        pairLoop dt checksum 0 dt.length
      else
        wadd (pairLoop dt checksum 0 (dt.length - 1)) (w16 (dt.getD (dt.length - 1) 0 * 256))

/-- `Header::verify_header_checksum`. -/
def Header.verify_header_checksum (h : Header) : Bool :=
  h.header_checksum == Header.calculate_header_checksum h.seq h.ack h.ptype

/-- `Header::verify_checksum`. -/
def Header.verify_checksum (h : Header) (data : Option (List Nat)) : Bool :=
  h.checksum == Header.calculate_checksum h.seq h.ack h.ptype h.header_checksum data

/-- `packet_to_binary`: big-endian `seq`, big-endian `ack`, a zero padding
byte, the type byte, big-endian `header_checksum`, big-endian `checksum`,
then the payload bytes verbatim when present. -/
def packet_to_binary (header : Header) (data : Option (List Nat)) : List Nat :=
  u32_to_be header.seq ++ u32_to_be header.ack ++ [0, header.ptype.toNat]
    ++ u16_to_be header.header_checksum ++ u16_to_be header.checksum
    ++ (match data with
        | some dt => dt
        | none => [])

/-- The payload bytes an `Option` payload argument denotes. -/
def payload_of : Option (List Nat) → List Nat
  | some dt => dt
  | none => []

/-- Flip bit `b` of the byte at offset `i` of a serialized packet. -/
def flipBit (s : List Nat) (i b : Nat) : List Nat :=
  s.set i (s.getD i 0 ^^^ 2 ^ b)

/-- `true` when a parse result is a header that passes
`verify_header_checksum`; `false` on a parse error. -/
def parsedVerify : Except ParseError Header → Bool
  | .ok h => h.verify_header_checksum
  | .error _ => false

/-- The pairwise payload fold as the specification words it: two bytes at a
time, `(high_byte << 8) + low_byte` with wrapping addition, and an odd
trailing byte contributes `byte << 8` alone. -/
def checksum_fold_spec (c : Nat) : List Nat → Nat
  | [] => c
  | [b] => wadd c (w16 (b * 256))
  | b1 :: b2 :: rest => checksum_fold_spec (wadd (wadd c (w16 (b1 * 256))) b2) rest

/-- The per-exchange `Connection` record.  Modelled from the spec: the
`manager.rs` module declaring it is not part of the sources, but every field
is visible where `examples/echo_server.rs` constructs it, and the spec's
data-model section lists the same five fields. -/
structure Connection where
  seq : Nat
  ack : Nat
  previous_seq : Nat
  is_open : Bool
  last_response : Nat
deriving DecidableEq

/-- The server connection right after sending SynAck
(`echo_server.rs` lines 30-63): created from the random `s` and the peer's
`peer_seq` on a valid Syn, then `connection.seq += 1`. -/
def server_after_synack (s peer_seq : Nat) : Connection :=
  { seq := s + 1
    ack := peer_seq + 1
    previous_seq := s
    is_open := false
    last_response := 5 }

/-- The `receive Ack packet` step of `echo_server.rs` (lines 65-83) on an
already-parsed header: each early `return` leaves the connection unchanged;
only a checksum-valid Ack satisfying both sequence equalities reaches
`connection.is_open = true`. -/
def await_ack_step (conn : Connection) (ph : Header) : Connection :=
  if ph.ptype ≠ PType.Ack then conn
  else if ph.verify_header_checksum = false ∨ ph.verify_checksum none = false then conn
  else if ph.ack ≠ conn.seq ∨ ph.seq ≠ conn.ack then conn
  else { conn with is_open := true }

/-- Checked variant of the `(lo..n).step_by(2)` payload loop: every slice
index is an `Option`-returning access, `none` modelling out-of-bounds. -/
def pairLoopChecked (dt : List Nat) (c : Nat) (idx n : Nat) : Option Nat :=
  if idx < n then
    match dt.get? idx, dt.get? (idx + 1) with
    | some b1, some b2 => pairLoopChecked dt (wadd (wadd c (w16 (b1 * 256))) b2) (idx + 2) n
    | _, _ => none
  else some c
termination_by n - idx
decreasing_by omega

/-- Checked variant of `Header::calculate_checksum`: the `is_some`-guarded
`unwrap_unchecked` and every payload index get explicit failure branches. -/
def calculate_checksum_checked (seq ack : Nat) (ptype : PType) (header_checksum : Nat)
    (data : Option (List Nat)) : Option Nat :=
  let checksum := header_checksum
  let checksum := wadd checksum (w16 (seq / 65536))
  let checksum := wadd checksum (w16 seq)
  let checksum := wadd checksum (w16 (ack / 65536))
  let checksum := wadd checksum (w16 ack)
  let checksum := wadd checksum (w16 ptype.toNat)
  if data.isSome then
    match data with
    | some dt =>
        if dt.length % 2 = 0 then
          pairLoopChecked dt checksum 0 dt.length
        else
          match pairLoopChecked dt checksum 0 (dt.length - 1), dt.get? (dt.length - 1) with
          | some c, some last => some (wadd c (w16 (last * 256)))
          | _, _ => none
    | none => none
  else some checksum

/-- Checked variant of `packet_to_binary`: the `is_some`-guarded
`unwrap_unchecked` on the payload gets an explicit failure branch. -/
def packet_to_binary_checked (header : Header) (data : Option (List Nat)) : Option (List Nat) :=
  let hdr := u32_to_be header.seq ++ u32_to_be header.ack ++ [0, header.ptype.toNat]
    ++ u16_to_be header.header_checksum ++ u16_to_be header.checksum
  if data.isSome then
    match data with
    | some dt => some (hdr ++ dt)
    | none => none
  else some hdr

/-! ### Basic lemmas about the embedding -/

lemma calculate_header_checksum_eq (seq ack : Nat) (p : PType) :
    Header.calculate_header_checksum seq ack p =
      (seq / 65536 + seq % 65536 + ack / 65536 + ack % 65536 + p.toNat) % 65536 := by
  simp only [Header.calculate_header_checksum, wadd, w16]
  omega

lemma u32_bytes_recompose (n : Nat) (h : n < 4294967296) :
    u32_from_be (n / 16777216 % 256) (n / 65536 % 256) (n / 256 % 256) (n % 256) = n := by
  simp only [u32_from_be]
  omega

lemma u16_bytes_recompose (n : Nat) (h : n < 65536) :
    u16_from_be (n / 256 % 256) (n % 256) = n := by
  simp only [u16_from_be]
  omega

lemma packet_to_binary_length (h : Header) (data : Option (List Nat)) :
    (packet_to_binary h data).length = 14 + (payload_of data).length := by
  cases data
  · simp [packet_to_binary, u32_to_be, u16_to_be, payload_of]
  · simp [packet_to_binary, u32_to_be, u16_to_be, payload_of]
    omega

lemma packet_to_binary_explicit (A B hc cs : Nat) (p : PType) (data : Option (List Nat)) :
    packet_to_binary ⟨A, B, p, hc, cs⟩ data =
      A / 16777216 % 256 :: A / 65536 % 256 :: A / 256 % 256 :: A % 256 ::
      B / 16777216 % 256 :: B / 65536 % 256 :: B / 256 % 256 :: B % 256 ::
      0 :: p.toNat :: hc / 256 % 256 :: hc % 256 :: cs / 256 % 256 :: cs % 256 ::
      payload_of data := by
  cases data <;> simp [packet_to_binary, u32_to_be, u16_to_be, payload_of]

lemma packet_to_binary_none_explicit (A B hc cs : Nat) (p : PType) :
    packet_to_binary ⟨A, B, p, hc, cs⟩ none =
      [A / 16777216 % 256, A / 65536 % 256, A / 256 % 256, A % 256,
       B / 16777216 % 256, B / 65536 % 256, B / 256 % 256, B % 256,
       0, p.toNat, hc / 256 % 256, hc % 256, cs / 256 % 256, cs % 256] := by
  simp [packet_to_binary, u32_to_be, u16_to_be]

lemma xor_flip_byte (s b : Nat) (hs : s < 256) (hb : b < 8) :
    s ^^^ 2 ^ b < 256 ∧ s ^^^ 2 ^ b ≠ s := by
  constructor
  · exact Nat.xor_lt_two_pow (n := 8) hs (Nat.pow_lt_pow_right (by omega) hb)
  · intro hcontra
    have h0 : s ^^^ (s ^^^ 2 ^ b) = 2 ^ b := by
      rw [← Nat.xor_assoc, Nat.xor_self, Nat.zero_xor]
    rw [hcontra, Nat.xor_self] at h0
    exact absurd h0.symm (Nat.pos_iff_ne_zero.mp (Nat.pos_pow_of_pos b (by omega)))

lemma parse_cons_ok (a0 a1 a2 a3 a4 a5 a6 a7 a8 a9 a10 a11 a12 a13 : Nat)
    (p : PType) (hp : ptype_of_byte a9 = some p) :
    Header.parse [a0, a1, a2, a3, a4, a5, a6, a7, a8, a9, a10, a11, a12, a13] =
      .ok ⟨u32_from_be a0 a1 a2 a3, u32_from_be a4 a5 a6 a7, p,
           u16_from_be a10 a11, u16_from_be a12 a13⟩ := by
  unfold Header.parse
  rw [if_neg (by simp [HEADER_SIZE]), if_neg (by simp [MAX_PACKET_SIZE])]
  simp only [List.getD_cons_zero, List.getD_cons_succ, hp]

lemma parse_cons_err (a0 a1 a2 a3 a4 a5 a6 a7 a8 a9 a10 a11 a12 a13 : Nat)
    (hp : ptype_of_byte a9 = none) :
    Header.parse [a0, a1, a2, a3, a4, a5, a6, a7, a8, a9, a10, a11, a12, a13] =
      .error (.UknownPType a8) := by
  unfold Header.parse
  rw [if_neg (by simp [HEADER_SIZE]), if_neg (by simp [MAX_PACKET_SIZE])]
  simp only [List.getD_cons_zero, List.getD_cons_succ, hp]

lemma checksum_mod_ne_hi (x y R : Nat) (hx : x < 256) (hy : y < 256) (hne : x ≠ y) :
    (x * 256 + R) % 65536 ≠ (y * 256 + R) % 65536 := by
  omega

lemma checksum_mod_ne_lo (x y R : Nat) (hx : x < 256) (hy : y < 256) (hne : x ≠ y) :
    (x + R) % 65536 ≠ (y + R) % 65536 := by
  omega

lemma ptype_toNat_le (p : PType) : p.toNat ≤ 5 := by
  cases p <;> simp [PType.toNat]

lemma ptype_toNat_pos (p : PType) : 1 ≤ p.toNat := by
  cases p <;> simp [PType.toNat]

lemma ptype_of_byte_toNat (p : PType) : ptype_of_byte p.toNat = some p := by
  cases p <;> rfl

lemma ptype_of_byte_some {n : Nat} {p : PType} (h : ptype_of_byte n = some p) :
    p.toNat = n := by
  unfold ptype_of_byte at h
  split_ifs at h with h1 h2 h3 h4 h5 <;>
    (injection h with h2; subst h2; simp [PType.toNat]; omega)

lemma ptype_of_byte_none_iff {n : Nat} :
    ptype_of_byte n = none ↔ n ∉ [1, 2, 3, 4, 5] := by
  unfold ptype_of_byte
  split_ifs <;> simp_all

lemma pairLoop_stop (dt : List Nat) (c idx n : Nat) (h : ¬ idx < n) :
    pairLoop dt c idx n = c := by
  rw [pairLoop]
  simp [h]

lemma pairLoop_go (dt : List Nat) (c idx n : Nat) (h : idx < n) :
    pairLoop dt c idx n =
      pairLoop dt (wadd (wadd c (w16 (dt.getD idx 0 * 256))) (dt.getD (idx + 1) 0))
        (idx + 2) n := by
  rw [pairLoop]
  simp [h]

lemma pairLoop_shift_aux (d1 d2 : Nat) (rest : List Nat) :
    ∀ fuel k idx c, k - idx ≤ fuel →
      pairLoop (d1 :: d2 :: rest) c (idx + 2) (k + 2) = pairLoop rest c idx k := by
  intro fuel
  induction fuel with
  | zero =>
      intro k idx c h
      rw [pairLoop_stop _ _ _ _ (by omega), pairLoop_stop _ _ _ _ (by omega)]
  | succ m ih =>
      intro k idx c h
      by_cases hlt : idx < k
      · rw [pairLoop_go _ _ _ _ (by omega), pairLoop_go _ _ _ _ hlt]
        have h1 : (d1 :: d2 :: rest).getD (idx + 2) 0 = rest.getD idx 0 := by
          simp [List.getD_cons_succ]
        have h2 : (d1 :: d2 :: rest).getD (idx + 2 + 1) 0 = rest.getD (idx + 1) 0 := by
          simp [List.getD_cons_succ]
        rw [h1, h2]
        have : idx + 2 + 2 = (idx + 2) + 2 := rfl
        rw [ih k (idx + 2) _ (by omega)]
      · rw [pairLoop_stop _ _ _ _ (by omega), pairLoop_stop _ _ _ _ (by omega)]

lemma pairLoop_shift (d1 d2 : Nat) (rest : List Nat) (k idx c : Nat) :
    pairLoop (d1 :: d2 :: rest) c (idx + 2) (k + 2) = pairLoop rest c idx k :=
  pairLoop_shift_aux d1 d2 rest (k - idx) k idx c le_rfl

/-- The even/odd payload loop pair of `calculate_checksum` computes the
pairwise fold. -/
lemma payload_loops_eq_fold :
    ∀ fuel (dt : List Nat), dt.length ≤ fuel → ∀ c,
      (if dt.length % 2 = 0 then pairLoop dt c 0 dt.length
       else wadd (pairLoop dt c 0 (dt.length - 1))
         (w16 (dt.getD (dt.length - 1) 0 * 256)))
      = checksum_fold_spec c dt := by
  intro fuel
  induction fuel with
  | zero =>
      intro dt h c
      match dt, h with
      | [], _ => simp [checksum_fold_spec, pairLoop_stop]
  | succ m ih =>
      intro dt h c
      match dt with
      | [] => simp [checksum_fold_spec, pairLoop_stop]
      | [b] =>
          rw [show ([b] : List Nat).length = 1 from rfl, if_neg (by norm_num),
            pairLoop_stop _ _ _ _ (by omega)]
          rfl
      | b1 :: b2 :: rest =>
          have hr : rest.length ≤ m := by
            simp only [List.length_cons] at h; omega
          simp only [List.length_cons, checksum_fold_spec]
          have hmod : (rest.length + 1 + 1) % 2 = rest.length % 2 := by omega
          rw [hmod]
          by_cases hpar : rest.length % 2 = 0
          · rw [if_pos hpar,
              show rest.length + 1 + 1 = rest.length + 2 from rfl,
              pairLoop_go _ _ _ _ (by omega),
              show ((b1 :: b2 :: rest).getD 0 0) = b1 from rfl,
              show ((b1 :: b2 :: rest).getD (0 + 1) 0) = b2 from rfl,
              pairLoop_shift b1 b2 rest rest.length 0 _]
            have := ih rest hr (wadd (wadd c (w16 (b1 * 256))) b2)
            rw [if_pos hpar] at this
            exact this
          · have hrl : 1 ≤ rest.length := by
              cases rest with
              | nil => simp at hpar
              | cons x xs => simp
            rw [if_neg hpar,
              show rest.length + 1 + 1 - 1 = (rest.length - 1) + 2 by omega,
              pairLoop_go _ _ _ _ (by omega),
              show ((b1 :: b2 :: rest).getD 0 0) = b1 from rfl,
              show ((b1 :: b2 :: rest).getD (0 + 1) 0) = b2 from rfl,
              pairLoop_shift b1 b2 rest (rest.length - 1) 0 _,
              show ∀ k, ((b1 :: b2 :: rest).getD (k + 2) 0) = rest.getD k 0 from
                fun k => by simp [List.getD_cons_succ]]
            have := ih rest hr (wadd (wadd c (w16 (b1 * 256))) b2)
            rw [if_neg hpar] at this
            exact this



lemma parse_cons_tail_ok (a0 a1 a2 a3 a4 a5 a6 a7 a8 a9 a10 a11 a12 a13 : Nat)
    (tail : List Nat) (p : PType) (hlen : tail.length ≤ 65493)
    (hp : ptype_of_byte a9 = some p) :
    Header.parse (a0 :: a1 :: a2 :: a3 :: a4 :: a5 :: a6 :: a7 :: a8 :: a9 ::
        a10 :: a11 :: a12 :: a13 :: tail) =
      .ok ⟨u32_from_be a0 a1 a2 a3, u32_from_be a4 a5 a6 a7, p,
           u16_from_be a10 a11, u16_from_be a12 a13⟩ := by
  unfold Header.parse
  rw [if_neg (by simp [HEADER_SIZE]), if_neg (by simp [MAX_PACKET_SIZE]; omega)]
  simp only [List.getD_cons_zero, List.getD_cons_succ, hp]

lemma get?_eq_some_getD (dt : List Nat) (i : Nat) (h : i < dt.length) :
    dt.get? i = some (dt.getD i 0) := by
  rcases hx : dt.get? i with _ | v
  · rw [List.get?_eq_none] at hx
    omega
  · simp [List.getD_eq_getElem?_getD, ← List.get?_eq_getElem?, hx]

lemma pairLoopChecked_stop (dt : List Nat) (c idx n : Nat) (h : ¬ idx < n) :
    pairLoopChecked dt c idx n = some c := by
  rw [pairLoopChecked]
  simp [h]

lemma pairLoopChecked_eq (dt : List Nat) :
    ∀ fuel idx n c, n - idx ≤ fuel → idx % 2 = 0 → n % 2 = 0 → n ≤ dt.length →
      pairLoopChecked dt c idx n = some (pairLoop dt c idx n) := by
  intro fuel
  induction fuel with
  | zero =>
      intro idx n c h hidx hn hlen
      rw [pairLoopChecked_stop _ _ _ _ (by omega), pairLoop_stop _ _ _ _ (by omega)]
  | succ m ih =>
      intro idx n c h hidx hn hlen
      by_cases hlt : idx < n
      · have hi1 : idx < dt.length := by omega
        have hi2 : idx + 1 < dt.length := by omega
        rw [pairLoopChecked, if_pos hlt, get?_eq_some_getD dt idx hi1,
          get?_eq_some_getD dt (idx + 1) hi2, pairLoop_go _ _ _ _ hlt]
        exact ih (idx + 2) n _ (by omega) (by omega) hn hlen
      · rw [pairLoopChecked_stop _ _ _ _ hlt, pairLoop_stop _ _ _ _ hlt]

set_option maxHeartbeats 2000000

/-! ### Claim theorems -/

/-- **C2** (code-bug exhibit): on the 14-byte input whose type byte (byte 9)
is the invalid value 9 and whose padding byte (byte 8) is 0, `parse` returns
`UknownPType 0` — it reports the padding byte `data[8]`, not the offending
type byte `data[9]` as the specification states. -/
theorem parse_unknown_ptype_reports_padding_byte :
    Header.parse [0, 0, 0, 0, 0, 0, 0, 0, 0, 9, 0, 0, 0, 0] =
      .error (.UknownPType 0) ∧
    Header.parse [0, 0, 0, 0, 0, 0, 0, 0, 0, 9, 0, 0, 0, 0] ≠
      .error (.UknownPType 9) := by
  constructor
  · rfl
  · intro hcontra
    rw [show Header.parse [0, 0, 0, 0, 0, 0, 0, 0, 0, 9, 0, 0, 0, 0] =
        Except.error (ParseError.UknownPType 0) from rfl] at hcontra
    injection hcontra with h1
    injection h1 with h2
    exact absurd h2 (by norm_num)

/-- **C3** (counterexample to the claim as stated): flipping bit 0 of the
padding byte (offset 8, outside the checksum fields at bytes 10..13) of a
serialized header with a valid `header_checksum` produces a genuinely
different byte string that still parses successfully to a header passing
`verify_header_checksum`; moreover, without the valid-`header_checksum`
premise, a flip in byte 3 can even repair a mismatched stored checksum. -/
theorem flip_sensitivity_counterexample :
    (flipBit (packet_to_binary ⟨0, 0, PType.Syn, 1, 2⟩ none) 8 0 ≠
        packet_to_binary ⟨0, 0, PType.Syn, 1, 2⟩ none ∧
      parsedVerify (Header.parse
        (flipBit (packet_to_binary ⟨0, 0, PType.Syn, 1, 2⟩ none) 8 0)) = true) ∧
    Header.verify_header_checksum ⟨0, 0, PType.Syn, 2, 2⟩ = false ∧
    parsedVerify (Header.parse
      (flipBit (packet_to_binary ⟨0, 0, PType.Syn, 2, 2⟩ none) 3 0)) = true := by
  refine ⟨⟨by decide, rfl⟩, rfl, rfl⟩

/-- **C3** (amended): for every header with valid ptype whose stored
`header_checksum` equals `calculate_header_checksum(seq, ack, ptype)`,
flipping any single bit of the serialized 14 bytes at an offset that the
header checksum covers — bytes 0..7 or byte 9, i.e. outside the checksum
fields at bytes 10..13 and outside the padding byte 8, which `parse`
ignores — and re-parsing yields either a parse error or a header on which
`verify_header_checksum` returns `false`. -/
theorem header_checksum_flip_sensitive (h : Header) (i b : Nat)
    (hseq : h.seq < 2 ^ 32) (hack : h.ack < 2 ^ 32)
    (hhc : h.header_checksum = Header.calculate_header_checksum h.seq h.ack h.ptype)
    (hi : i < 8 ∨ i = 9) (hb : b < 8) :
    parsedVerify (Header.parse (flipBit (packet_to_binary h none) i b)) = false := by
  obtain ⟨A, B, p, hc, cs⟩ := h
  simp only [Header.seq, Header.ack, Header.ptype, Header.header_checksum] at hseq hack hhc
  norm_num at hseq hack
  have hp1 := ptype_toNat_pos p
  have hp2 := ptype_toNat_le p
  have hhcf : hc = (A / 65536 + A % 65536 + B / 65536 + B % 65536 + p.toNat) % 65536 := by
    rw [hhc, calculate_header_checksum_eq]
  have hhclt : hc < 65536 := by clear * - hhcf; omega
  clear hhc
  rw [packet_to_binary_none_explicit]
  rcases hi with hi | rfl
  · interval_cases i
    · -- byte 0: high byte of the high half of seq
      obtain ⟨ht1, ht2⟩ := xor_flip_byte (A / 16777216 % 256) b (by clear * -; omega) hb
      obtain ⟨t, hts⟩ : ∃ t, A / 16777216 % 256 ^^^ 2 ^ b = t := ⟨_, rfl⟩
      rw [hts] at ht1 ht2
      have e1 : (((t * 256 + A / 65536 % 256) * 256 + A / 256 % 256) * 256 + A % 256) / 65536
          = t * 256 + A / 65536 % 256 := by clear * - ht1; omega
      have e2 : (((t * 256 + A / 65536 % 256) * 256 + A / 256 % 256) * 256 + A % 256) % 65536
          = A % 65536 := by clear * - ht1; omega
      have harg : A / 65536 + A % 65536 + B / 65536 + B % 65536 + p.toNat
          = A / 16777216 % 256 * 256 + (A / 65536 % 256 + A % 65536 + B / 65536 + B % 65536 + p.toNat) := by
        clear * - hseq; omega
      have harg2 : t * 256 + A / 65536 % 256 + A % 65536 + B / 65536 + B % 65536 + p.toNat
          = t * 256 + (A / 65536 % 256 + A % 65536 + B / 65536 + B % 65536 + p.toNat) := by
        clear * - ht1; omega
      simp only [flipBit, List.set, List.getD_cons_zero, List.getD_cons_succ]
      rw [hts, parse_cons_ok _ _ _ _ _ _ _ _ _ _ _ _ _ _ p (ptype_of_byte_toNat p)]
      simp only [parsedVerify, Header.verify_header_checksum]
      rw [beq_eq_false_iff_ne, u32_bytes_recompose B hack, u16_bytes_recompose hc hhclt,
          calculate_header_checksum_eq]
      simp only [u32_from_be]
      rw [e1, e2]
      intro hcontra
      rw [hhcf, harg, harg2] at hcontra
      exact checksum_mod_ne_hi _ _ _ (by clear * - hseq; omega) ht1 (fun hx => ht2 hx.symm) hcontra
    · -- byte 1: low byte of the high half of seq
      obtain ⟨ht1, ht2⟩ := xor_flip_byte (A / 65536 % 256) b (by clear * -; omega) hb
      obtain ⟨t, hts⟩ : ∃ t, A / 65536 % 256 ^^^ 2 ^ b = t := ⟨_, rfl⟩
      rw [hts] at ht1 ht2
      have e1 : (((A / 16777216 % 256 * 256 + t) * 256 + A / 256 % 256) * 256 + A % 256) / 65536
          = A / 16777216 % 256 * 256 + t := by clear * - ht1; omega
      have e2 : (((A / 16777216 % 256 * 256 + t) * 256 + A / 256 % 256) * 256 + A % 256) % 65536
          = A % 65536 := by clear * - ht1; omega
      have harg : A / 65536 + A % 65536 + B / 65536 + B % 65536 + p.toNat
          = A / 65536 % 256 + (A / 16777216 % 256 * 256 + A % 65536 + B / 65536 + B % 65536 + p.toNat) := by
        clear * - hseq; omega
      have harg2 : A / 16777216 % 256 * 256 + t + A % 65536 + B / 65536 + B % 65536 + p.toNat
          = t + (A / 16777216 % 256 * 256 + A % 65536 + B / 65536 + B % 65536 + p.toNat) := by
        clear * - ht1; omega
      simp only [flipBit, List.set, List.getD_cons_zero, List.getD_cons_succ]
      rw [hts, parse_cons_ok _ _ _ _ _ _ _ _ _ _ _ _ _ _ p (ptype_of_byte_toNat p)]
      simp only [parsedVerify, Header.verify_header_checksum]
      rw [beq_eq_false_iff_ne, u32_bytes_recompose B hack, u16_bytes_recompose hc hhclt,
          calculate_header_checksum_eq]
      simp only [u32_from_be]
      rw [e1, e2]
      intro hcontra
      rw [hhcf, harg, harg2] at hcontra
      exact checksum_mod_ne_lo _ _ _ (by clear * -; omega) ht1 (fun hx => ht2 hx.symm) hcontra
    · -- byte 2: high byte of the low half of seq
      obtain ⟨ht1, ht2⟩ := xor_flip_byte (A / 256 % 256) b (by clear * -; omega) hb
      obtain ⟨t, hts⟩ : ∃ t, A / 256 % 256 ^^^ 2 ^ b = t := ⟨_, rfl⟩
      rw [hts] at ht1 ht2
      have e1 : (((A / 16777216 % 256 * 256 + A / 65536 % 256) * 256 + t) * 256 + A % 256) / 65536
          = A / 65536 := by clear * - ht1 hseq; omega
      have e2 : (((A / 16777216 % 256 * 256 + A / 65536 % 256) * 256 + t) * 256 + A % 256) % 65536
          = t * 256 + A % 256 := by clear * - ht1; omega
      have harg : A / 65536 + A % 65536 + B / 65536 + B % 65536 + p.toNat
          = A / 256 % 256 * 256 + (A / 65536 + A % 256 + B / 65536 + B % 65536 + p.toNat) := by
        clear * - hseq; omega
      have harg2 : A / 65536 + (t * 256 + A % 256) + B / 65536 + B % 65536 + p.toNat
          = t * 256 + (A / 65536 + A % 256 + B / 65536 + B % 65536 + p.toNat) := by
        clear * - ht1; omega
      simp only [flipBit, List.set, List.getD_cons_zero, List.getD_cons_succ]
      rw [hts, parse_cons_ok _ _ _ _ _ _ _ _ _ _ _ _ _ _ p (ptype_of_byte_toNat p)]
      simp only [parsedVerify, Header.verify_header_checksum]
      rw [beq_eq_false_iff_ne, u32_bytes_recompose B hack, u16_bytes_recompose hc hhclt,
          calculate_header_checksum_eq]
      simp only [u32_from_be]
      rw [e1, e2]
      intro hcontra
      rw [hhcf, harg, harg2] at hcontra
      exact checksum_mod_ne_hi _ _ _ (by clear * -; omega) ht1 (fun hx => ht2 hx.symm) hcontra
    · -- byte 3: low byte of the low half of seq
      obtain ⟨ht1, ht2⟩ := xor_flip_byte (A % 256) b (by clear * -; omega) hb
      obtain ⟨t, hts⟩ : ∃ t, A % 256 ^^^ 2 ^ b = t := ⟨_, rfl⟩
      rw [hts] at ht1 ht2
      have e1 : (((A / 16777216 % 256 * 256 + A / 65536 % 256) * 256 + A / 256 % 256) * 256 + t) / 65536
          = A / 65536 := by clear * - ht1 hseq; omega
      have e2 : (((A / 16777216 % 256 * 256 + A / 65536 % 256) * 256 + A / 256 % 256) * 256 + t) % 65536
          = A / 256 % 256 * 256 + t := by clear * - ht1; omega
      have harg : A / 65536 + A % 65536 + B / 65536 + B % 65536 + p.toNat
          = A % 256 + (A / 65536 + A / 256 % 256 * 256 + B / 65536 + B % 65536 + p.toNat) := by
        clear * - hseq; omega
      have harg2 : A / 65536 + (A / 256 % 256 * 256 + t) + B / 65536 + B % 65536 + p.toNat
          = t + (A / 65536 + A / 256 % 256 * 256 + B / 65536 + B % 65536 + p.toNat) := by
        clear * - ht1; omega
      simp only [flipBit, List.set, List.getD_cons_zero, List.getD_cons_succ]
      rw [hts, parse_cons_ok _ _ _ _ _ _ _ _ _ _ _ _ _ _ p (ptype_of_byte_toNat p)]
      simp only [parsedVerify, Header.verify_header_checksum]
      rw [beq_eq_false_iff_ne, u32_bytes_recompose B hack, u16_bytes_recompose hc hhclt,
          calculate_header_checksum_eq]
      simp only [u32_from_be]
      rw [e1, e2]
      intro hcontra
      rw [hhcf, harg, harg2] at hcontra
      exact checksum_mod_ne_lo _ _ _ (by clear * -; omega) ht1 (fun hx => ht2 hx.symm) hcontra
    · -- byte 4: high byte of the high half of ack
      obtain ⟨ht1, ht2⟩ := xor_flip_byte (B / 16777216 % 256) b (by clear * -; omega) hb
      obtain ⟨t, hts⟩ : ∃ t, B / 16777216 % 256 ^^^ 2 ^ b = t := ⟨_, rfl⟩
      rw [hts] at ht1 ht2
      have e1 : (((t * 256 + B / 65536 % 256) * 256 + B / 256 % 256) * 256 + B % 256) / 65536
          = t * 256 + B / 65536 % 256 := by clear * - ht1; omega
      have e2 : (((t * 256 + B / 65536 % 256) * 256 + B / 256 % 256) * 256 + B % 256) % 65536
          = B % 65536 := by clear * - ht1; omega
      have harg : A / 65536 + A % 65536 + B / 65536 + B % 65536 + p.toNat
          = B / 16777216 % 256 * 256 + (A / 65536 + A % 65536 + B / 65536 % 256 + B % 65536 + p.toNat) := by
        clear * - hack; omega
      have harg2 : A / 65536 + A % 65536 + (t * 256 + B / 65536 % 256) + B % 65536 + p.toNat
          = t * 256 + (A / 65536 + A % 65536 + B / 65536 % 256 + B % 65536 + p.toNat) := by
        clear * - ht1; omega
      simp only [flipBit, List.set, List.getD_cons_zero, List.getD_cons_succ]
      rw [hts, parse_cons_ok _ _ _ _ _ _ _ _ _ _ _ _ _ _ p (ptype_of_byte_toNat p)]
      simp only [parsedVerify, Header.verify_header_checksum]
      rw [beq_eq_false_iff_ne, u32_bytes_recompose A hseq, u16_bytes_recompose hc hhclt,
          calculate_header_checksum_eq]
      simp only [u32_from_be]
      rw [e1, e2]
      intro hcontra
      rw [hhcf, harg, harg2] at hcontra
      exact checksum_mod_ne_hi _ _ _ (by clear * - hack; omega) ht1 (fun hx => ht2 hx.symm) hcontra
    · -- byte 5: low byte of the high half of ack
      obtain ⟨ht1, ht2⟩ := xor_flip_byte (B / 65536 % 256) b (by clear * -; omega) hb
      obtain ⟨t, hts⟩ : ∃ t, B / 65536 % 256 ^^^ 2 ^ b = t := ⟨_, rfl⟩
      rw [hts] at ht1 ht2
      have e1 : (((B / 16777216 % 256 * 256 + t) * 256 + B / 256 % 256) * 256 + B % 256) / 65536
          = B / 16777216 % 256 * 256 + t := by clear * - ht1; omega
      have e2 : (((B / 16777216 % 256 * 256 + t) * 256 + B / 256 % 256) * 256 + B % 256) % 65536
          = B % 65536 := by clear * - ht1; omega
      have harg : A / 65536 + A % 65536 + B / 65536 + B % 65536 + p.toNat
          = B / 65536 % 256 + (A / 65536 + A % 65536 + B / 16777216 % 256 * 256 + B % 65536 + p.toNat) := by
        clear * - hack; omega
      have harg2 : A / 65536 + A % 65536 + (B / 16777216 % 256 * 256 + t) + B % 65536 + p.toNat
          = t + (A / 65536 + A % 65536 + B / 16777216 % 256 * 256 + B % 65536 + p.toNat) := by
        clear * - ht1; omega
      simp only [flipBit, List.set, List.getD_cons_zero, List.getD_cons_succ]
      rw [hts, parse_cons_ok _ _ _ _ _ _ _ _ _ _ _ _ _ _ p (ptype_of_byte_toNat p)]
      simp only [parsedVerify, Header.verify_header_checksum]
      rw [beq_eq_false_iff_ne, u32_bytes_recompose A hseq, u16_bytes_recompose hc hhclt,
          calculate_header_checksum_eq]
      simp only [u32_from_be]
      rw [e1, e2]
      intro hcontra
      rw [hhcf, harg, harg2] at hcontra
      exact checksum_mod_ne_lo _ _ _ (by clear * -; omega) ht1 (fun hx => ht2 hx.symm) hcontra
    · -- byte 6: high byte of the low half of ack
      obtain ⟨ht1, ht2⟩ := xor_flip_byte (B / 256 % 256) b (by clear * -; omega) hb
      obtain ⟨t, hts⟩ : ∃ t, B / 256 % 256 ^^^ 2 ^ b = t := ⟨_, rfl⟩
      rw [hts] at ht1 ht2
      have e1 : (((B / 16777216 % 256 * 256 + B / 65536 % 256) * 256 + t) * 256 + B % 256) / 65536
          = B / 65536 := by clear * - ht1 hack; omega
      have e2 : (((B / 16777216 % 256 * 256 + B / 65536 % 256) * 256 + t) * 256 + B % 256) % 65536
          = t * 256 + B % 256 := by clear * - ht1; omega
      have harg : A / 65536 + A % 65536 + B / 65536 + B % 65536 + p.toNat
          = B / 256 % 256 * 256 + (A / 65536 + A % 65536 + B / 65536 + B % 256 + p.toNat) := by
        clear * - hack; omega
      have harg2 : A / 65536 + A % 65536 + B / 65536 + (t * 256 + B % 256) + p.toNat
          = t * 256 + (A / 65536 + A % 65536 + B / 65536 + B % 256 + p.toNat) := by
        clear * - ht1; omega
      simp only [flipBit, List.set, List.getD_cons_zero, List.getD_cons_succ]
      rw [hts, parse_cons_ok _ _ _ _ _ _ _ _ _ _ _ _ _ _ p (ptype_of_byte_toNat p)]
      simp only [parsedVerify, Header.verify_header_checksum]
      rw [beq_eq_false_iff_ne, u32_bytes_recompose A hseq, u16_bytes_recompose hc hhclt,
          calculate_header_checksum_eq]
      simp only [u32_from_be]
      rw [e1, e2]
      intro hcontra
      rw [hhcf, harg, harg2] at hcontra
      exact checksum_mod_ne_hi _ _ _ (by clear * -; omega) ht1 (fun hx => ht2 hx.symm) hcontra
    · -- byte 7: low byte of the low half of ack
      obtain ⟨ht1, ht2⟩ := xor_flip_byte (B % 256) b (by clear * -; omega) hb
      obtain ⟨t, hts⟩ : ∃ t, B % 256 ^^^ 2 ^ b = t := ⟨_, rfl⟩
      rw [hts] at ht1 ht2
      have e1 : (((B / 16777216 % 256 * 256 + B / 65536 % 256) * 256 + B / 256 % 256) * 256 + t) / 65536
          = B / 65536 := by clear * - ht1 hack; omega
      have e2 : (((B / 16777216 % 256 * 256 + B / 65536 % 256) * 256 + B / 256 % 256) * 256 + t) % 65536
          = B / 256 % 256 * 256 + t := by clear * - ht1; omega
      have harg : A / 65536 + A % 65536 + B / 65536 + B % 65536 + p.toNat
          = B % 256 + (A / 65536 + A % 65536 + B / 65536 + B / 256 % 256 * 256 + p.toNat) := by
        clear * - hack; omega
      have harg2 : A / 65536 + A % 65536 + B / 65536 + (B / 256 % 256 * 256 + t) + p.toNat
          = t + (A / 65536 + A % 65536 + B / 65536 + B / 256 % 256 * 256 + p.toNat) := by
        clear * - ht1; omega
      simp only [flipBit, List.set, List.getD_cons_zero, List.getD_cons_succ]
      rw [hts, parse_cons_ok _ _ _ _ _ _ _ _ _ _ _ _ _ _ p (ptype_of_byte_toNat p)]
      simp only [parsedVerify, Header.verify_header_checksum]
      rw [beq_eq_false_iff_ne, u32_bytes_recompose A hseq, u16_bytes_recompose hc hhclt,
          calculate_header_checksum_eq]
      simp only [u32_from_be]
      rw [e1, e2]
      intro hcontra
      rw [hhcf, harg, harg2] at hcontra
      exact checksum_mod_ne_lo _ _ _ (by clear * -; omega) ht1 (fun hx => ht2 hx.symm) hcontra
  · -- byte 9: the type byte
    obtain ⟨ht1, ht2⟩ := xor_flip_byte p.toNat b (by clear * - hp2; omega) hb
    obtain ⟨t, hts⟩ : ∃ t, p.toNat ^^^ 2 ^ b = t := ⟨_, rfl⟩
    rw [hts] at ht1 ht2
    simp only [flipBit, List.set, List.getD_cons_zero, List.getD_cons_succ]
    rw [hts]
    rcases hq : ptype_of_byte t with _ | q
    · rw [parse_cons_err _ _ _ _ _ _ _ _ _ _ _ _ _ _ hq]
      rfl
    · rw [parse_cons_ok _ _ _ _ _ _ _ _ _ _ _ _ _ _ q hq]
      have hqt : q.toNat = t := ptype_of_byte_some hq
      have hq2 := ptype_toNat_le q
      have hne : p.toNat ≠ q.toNat := by rw [hqt]; exact fun hx => ht2 hx.symm
      have harg : A / 65536 + A % 65536 + B / 65536 + B % 65536 + p.toNat
          = p.toNat + (A / 65536 + A % 65536 + B / 65536 + B % 65536) := by
        clear * -; omega
      have harg2 : A / 65536 + A % 65536 + B / 65536 + B % 65536 + q.toNat
          = q.toNat + (A / 65536 + A % 65536 + B / 65536 + B % 65536) := by
        clear * -; omega
      simp only [parsedVerify, Header.verify_header_checksum]
      rw [beq_eq_false_iff_ne, u32_bytes_recompose A hseq, u32_bytes_recompose B hack,
          u16_bytes_recompose hc hhclt, calculate_header_checksum_eq]
      intro hcontra
      rw [hhcf, harg, harg2] at hcontra
      exact checksum_mod_ne_lo _ _ _ (by clear * - hp2; omega)
        (by clear * - hq2; omega) hne hcontra

/-- **C3** witness: the amended theorem applied at a concrete header,
byte offset 0, bit 0. -/
theorem header_checksum_flip_sensitive_witness :
    parsedVerify (Header.parse
      (flipBit (packet_to_binary ⟨0, 0, PType.Syn, 1, 2⟩ none) 0 0)) = false :=
  header_checksum_flip_sensitive ⟨0, 0, PType.Syn, 1, 2⟩ 0 0 (by norm_num)
    (by norm_num) (by decide) (Or.inl (by norm_num)) (by norm_num)

/-- **C4**: for every `seq`, `ack` and `ptype`, `calculate_header_checksum`
equals `((seq >> 16) + (seq mod 2^16) + (ack >> 16) + (ack mod 2^16) +
ptype) mod 2^16` — wrapping 16-bit addition with no end-around carry fold —
and `calculate_checksum` (here with no payload) applies the same
contributions on top of its `header_checksum` seed, all modulo `2^16`. -/
theorem checksum_is_wrapping_fold (seq ack : Nat) (p : PType) (hc : Nat) :
    Header.calculate_header_checksum seq ack p =
      (seq / 2 ^ 16 + seq % 2 ^ 16 + ack / 2 ^ 16 + ack % 2 ^ 16 + p.toNat) % 2 ^ 16 ∧
    Header.calculate_checksum seq ack p hc none =
      (hc + (seq / 2 ^ 16 + seq % 2 ^ 16 + ack / 2 ^ 16 + ack % 2 ^ 16 + p.toNat)) % 2 ^ 16 := by
  have hp := ptype_toNat_le p
  constructor
  · rw [calculate_header_checksum_eq]
    norm_num
  · simp only [Header.calculate_checksum, wadd, w16]
    norm_num
    omega

/-- **C5**: `calculate_checksum` folds a present payload pairwise on top of
the payload-free checksum: each byte pair contributes
`(high_byte << 8) + low_byte` and an odd trailing byte contributes
`byte << 8` alone, with wrapping 16-bit addition throughout; in particular
payload `[0x01]` contributes `0x0100` and `[0x01, 0x02]` contributes
`0x0102` to the accumulator. -/
theorem calculate_checksum_payload_pairwise (seq ack : Nat) (p : PType) (hc : Nat)
    (dt : List Nat) :
    Header.calculate_checksum seq ack p hc (some dt) =
      checksum_fold_spec (Header.calculate_checksum seq ack p hc none) dt ∧
    Header.calculate_checksum seq ack p hc (some [1]) =
      (Header.calculate_checksum seq ack p hc none + 0x0100) % 2 ^ 16 ∧
    Header.calculate_checksum seq ack p hc (some [1, 2]) =
      (Header.calculate_checksum seq ack p hc none + 0x0102) % 2 ^ 16 := by
  have key : ∀ es : List Nat,
      Header.calculate_checksum seq ack p hc (some es) =
        checksum_fold_spec (Header.calculate_checksum seq ack p hc none) es := by
    intro es
    simp only [Header.calculate_checksum]
    exact payload_loops_eq_fold es.length es le_rfl _
  refine ⟨key dt, ?_, ?_⟩
  · rw [key [1]]
    simp [checksum_fold_spec, wadd, w16]
  · rw [key [1, 2]]
    simp only [checksum_fold_spec, wadd, w16]
    norm_num

/-- **C9**: an empty-but-present payload contributes nothing:
`calculate_checksum` on `some []` coincides with `calculate_checksum` on
`none` for all arguments. -/
theorem calculate_checksum_empty_payload (seq ack : Nat) (p : PType) (hc : Nat) :
    Header.calculate_checksum seq ack p hc (some []) =
      Header.calculate_checksum seq ack p hc none := by
  simp only [Header.calculate_checksum, List.length_nil]
  rw [if_pos (by norm_num), pairLoop_stop _ _ _ _ (by omega)]

/-- **C1**: round-trip — for every header (any of the five valid ptypes) and
every optional payload with `14 + payload length ≤ 65507`, parsing the bytes
produced by `packet_to_binary` succeeds and returns a header whose `seq`,
`ack`, `ptype`, `header_checksum` and `checksum` equal the original's, and
the serialized bytes from offset 14 onward equal the original payload. -/
theorem parse_packet_to_binary_roundtrip (h : Header) (data : Option (List Nat))
    (hseq : h.seq < 2 ^ 32) (hack : h.ack < 2 ^ 32)
    (hhc : h.header_checksum < 2 ^ 16) (hcs : h.checksum < 2 ^ 16)
    (hlen : HEADER_SIZE + (payload_of data).length ≤ MAX_PACKET_SIZE) :
    Header.parse (packet_to_binary h data) = .ok h ∧
    (packet_to_binary h data).drop HEADER_SIZE = payload_of data := by
  obtain ⟨A, B, p, hc, cs⟩ := h
  simp only [Header.seq, Header.ack, Header.ptype, Header.header_checksum,
    Header.checksum] at hseq hack hhc hcs
  norm_num at hseq hack hhc hcs
  simp only [HEADER_SIZE, MAX_PACKET_SIZE] at hlen
  rw [packet_to_binary_explicit]
  constructor
  · rw [parse_cons_tail_ok _ _ _ _ _ _ _ _ _ _ _ _ _ _ _ p (by omega) (ptype_of_byte_toNat p),
      u32_bytes_recompose A hseq, u32_bytes_recompose B hack,
      u16_bytes_recompose hc hhc, u16_bytes_recompose cs hcs]
  · simp [HEADER_SIZE]

/-- **C1** witness: the round-trip theorem applied at a concrete header and
payload `[7, 8]`. -/
theorem parse_packet_to_binary_roundtrip_witness :
    Header.parse (packet_to_binary ⟨1, 2, PType.Psh, 3, 4⟩ (some [7, 8])) =
      .ok ⟨1, 2, PType.Psh, 3, 4⟩ ∧
    (packet_to_binary ⟨1, 2, PType.Psh, 3, 4⟩ (some [7, 8])).drop HEADER_SIZE = [7, 8] :=
  parse_packet_to_binary_roundtrip ⟨1, 2, PType.Psh, 3, 4⟩ (some [7, 8])
    (by norm_num) (by norm_num) (by norm_num) (by norm_num) (by decide)

/-- **C6**: `packet_to_binary` emits, in order, `seq` as 4 big-endian bytes,
`ack` as 4 big-endian bytes, a zero byte at offset 8, the ptype discriminant
at offset 9, `header_checksum` and `checksum` as 2 big-endian bytes each,
then the payload verbatim; the output length is `14 + payload length`, and
exactly 14 when there is no payload. -/
theorem packet_to_binary_layout (h : Header) (data : Option (List Nat))
    (hseq : h.seq < 2 ^ 32) (hack : h.ack < 2 ^ 32)
    (hhc : h.header_checksum < 2 ^ 16) (hcs : h.checksum < 2 ^ 16) :
    (packet_to_binary h data).length = HEADER_SIZE + (payload_of data).length ∧
    (data = none → (packet_to_binary h data).length = HEADER_SIZE) ∧
    u32_from_be ((packet_to_binary h data).getD 0 0) ((packet_to_binary h data).getD 1 0)
        ((packet_to_binary h data).getD 2 0) ((packet_to_binary h data).getD 3 0) = h.seq ∧
    u32_from_be ((packet_to_binary h data).getD 4 0) ((packet_to_binary h data).getD 5 0)
        ((packet_to_binary h data).getD 6 0) ((packet_to_binary h data).getD 7 0) = h.ack ∧
    (packet_to_binary h data).getD 8 0 = 0 ∧
    (packet_to_binary h data).getD 9 0 = h.ptype.toNat ∧
    u16_from_be ((packet_to_binary h data).getD 10 0) ((packet_to_binary h data).getD 11 0)
        = h.header_checksum ∧
    u16_from_be ((packet_to_binary h data).getD 12 0) ((packet_to_binary h data).getD 13 0)
        = h.checksum ∧
    (packet_to_binary h data).drop HEADER_SIZE = payload_of data := by
  obtain ⟨A, B, p, hc, cs⟩ := h
  simp only [Header.seq, Header.ack, Header.ptype, Header.header_checksum,
    Header.checksum] at hseq hack hhc hcs ⊢
  norm_num at hseq hack hhc hcs
  have hL := packet_to_binary_length ⟨A, B, p, hc, cs⟩ data
  refine ⟨by rw [hL]; rfl, ?_, ?_⟩
  · intro hd
    subst hd
    rw [hL]
    simp [payload_of, HEADER_SIZE]
  · rw [packet_to_binary_explicit]
    simp only [List.getD_cons_zero, List.getD_cons_succ]
    exact ⟨u32_bytes_recompose A hseq, u32_bytes_recompose B hack, trivial, trivial,
      u16_bytes_recompose hc hhc, u16_bytes_recompose cs hcs, by simp [HEADER_SIZE]⟩

/-- **C6** witness: the layout theorem applied at a concrete header with
payload `[7, 8]`: total length 16, type byte 4 (Psh), payload at offset 14. -/
theorem packet_to_binary_layout_witness :
    (packet_to_binary ⟨1, 2, PType.Psh, 3, 4⟩ (some [7, 8])).length = 16 ∧
    (packet_to_binary ⟨1, 2, PType.Psh, 3, 4⟩ (some [7, 8])).getD 9 0 = 4 ∧
    (packet_to_binary ⟨1, 2, PType.Psh, 3, 4⟩ (some [7, 8])).drop HEADER_SIZE = [7, 8] := by
  have hl := packet_to_binary_layout ⟨1, 2, PType.Psh, 3, 4⟩ (some [7, 8])
    (by norm_num) (by norm_num) (by norm_num) (by norm_num)
  exact ⟨by rw [hl.1]; rfl, by rw [hl.2.2.2.2.2.1]; rfl, hl.2.2.2.2.2.2.2.2⟩

/-- **C7**: `parse` fails exactly on the three conditions — length below 14
(`TooSmallPacket`), length above 65507 (`TooBigPacket` carrying the length),
or byte 9 outside `{1..5}` (the unknown-type error) — and succeeds on every
length- and type-valid input regardless of the stored checksum values, which
it never inspects. -/
theorem parse_error_conditions (data : List Nat) :
    (data.length < HEADER_SIZE → Header.parse data = .error .TooSmallPacket) ∧
    (data.length > MAX_PACKET_SIZE → Header.parse data = .error (.TooBigPacket data.length)) ∧
    (HEADER_SIZE ≤ data.length → data.length ≤ MAX_PACKET_SIZE →
      data.getD 9 0 ∉ [1, 2, 3, 4, 5] →
      Header.parse data = .error (.UknownPType (data.getD 8 0))) ∧
    (HEADER_SIZE ≤ data.length → data.length ≤ MAX_PACKET_SIZE →
      data.getD 9 0 ∈ [1, 2, 3, 4, 5] →
      ∃ hd, Header.parse data = .ok hd) := by
  refine ⟨?_, ?_, ?_, ?_⟩
  · intro hlt
    unfold Header.parse
    rw [if_pos hlt]
  · intro hgt
    unfold Header.parse
    rw [if_neg (by simp only [HEADER_SIZE, MAX_PACKET_SIZE] at hgt ⊢; omega), if_pos hgt]
  · intro h1 h2 hmem
    unfold Header.parse
    rw [if_neg (by omega), if_neg (by omega)]
    have hnone : ptype_of_byte (data.getD 9 0) = none := ptype_of_byte_none_iff.mpr hmem
    simp only [hnone]
  · intro h1 h2 hmem
    unfold Header.parse
    rw [if_neg (by omega), if_neg (by omega)]
    rcases hx : ptype_of_byte (data.getD 9 0) with _ | q
    · exact absurd hmem (ptype_of_byte_none_iff.mp hx)
    · refine ⟨⟨u32_from_be (data.getD 0 0) (data.getD 1 0) (data.getD 2 0) (data.getD 3 0),
          u32_from_be (data.getD 4 0) (data.getD 5 0) (data.getD 6 0) (data.getD 7 0), q,
          u16_from_be (data.getD 10 0) (data.getD 11 0),
          u16_from_be (data.getD 12 0) (data.getD 13 0)⟩, ?_⟩
      simp only [hx]

/-- **C7** witness: a 13-byte input is `TooSmallPacket`; a 65508-byte input is
`TooBigPacket 65508`; a 14-byte input with byte 9 = 9 (and byte 8 = 7) is the
unknown-type error; a 14-byte input with byte 9 = 3 and both stored checksums
zero (hence invalid) parses successfully. -/
theorem parse_error_conditions_witness :
    Header.parse (List.replicate 13 0) = .error .TooSmallPacket ∧
    Header.parse (List.replicate 65508 0) = .error (.TooBigPacket 65508) ∧
    Header.parse [0, 0, 0, 0, 0, 0, 0, 0, 7, 9, 0, 0, 0, 0] = .error (.UknownPType 7) ∧
    ∃ hd, Header.parse [0, 0, 0, 0, 0, 0, 0, 0, 0, 3, 0, 0, 0, 0] = .ok hd := by
  refine ⟨(parse_error_conditions _).1 (by rw [List.length_replicate]; decide), ?_, ?_,
    (parse_error_conditions _).2.2.2 (by simp [HEADER_SIZE]) (by decide) (by decide)⟩
  · have := (parse_error_conditions (List.replicate 65508 0)).2.1
      (by rw [List.length_replicate]; decide)
    rwa [List.length_replicate] at this
  · have := (parse_error_conditions [0, 0, 0, 0, 0, 0, 0, 0, 7, 9, 0, 0, 0, 0]).2.2.1
      (by simp [HEADER_SIZE]) (by decide) (by decide)
    simpa using this

/-- **C8**: in the server's Ack-await step, an Ack whose `ack` field differs
from the post-SynAck sequence number `s + 1` or whose `seq` differs from the
server's `ack` leaves the connection record unchanged (so `is_open` stays
`false`); `is_open` becomes `true` only for a checksum-valid Ack satisfying
both equalities, and then it does. -/
theorem ack_mismatch_preserves_connection (s ps : Nat) (ph : Header) :
    (server_after_synack s ps).is_open = false ∧
    ((ph.ack ≠ s + 1 ∨ ph.seq ≠ ps + 1) →
      await_ack_step (server_after_synack s ps) ph = server_after_synack s ps) ∧
    ((await_ack_step (server_after_synack s ps) ph).is_open = true →
      ph.ptype = PType.Ack ∧ ph.verify_header_checksum = true ∧
        ph.verify_checksum none = true ∧ ph.ack = s + 1 ∧ ph.seq = ps + 1) ∧
    (ph.ptype = PType.Ack → ph.verify_header_checksum = true →
      ph.verify_checksum none = true → ph.ack = s + 1 → ph.seq = ps + 1 →
      await_ack_step (server_after_synack s ps) ph =
        { server_after_synack s ps with is_open := true }) := by
  refine ⟨rfl, ?_, ?_, ?_⟩
  · intro hmis
    unfold await_ack_step
    split_ifs with h1 h2 h3
    · rfl
    · rfl
    · rfl
    · exfalso
      simp only [server_after_synack] at h3
      push_neg at h3
      rcases hmis with hmis | hmis
      · exact hmis h3.1
      · exact hmis h3.2
  · intro hopen
    unfold await_ack_step at hopen
    split_ifs at hopen with h1 h2 h3
    · exact absurd hopen (by simp [server_after_synack])
    · exact absurd hopen (by simp [server_after_synack])
    · exact absurd hopen (by simp [server_after_synack])
    · push_neg at h1 h2 h3
      simp only [server_after_synack] at h3
      refine ⟨h1, ?_, ?_, h3.1, h3.2⟩
      · cases hv : ph.verify_header_checksum
        · exact absurd hv h2.1
        · rfl
      · cases hv : ph.verify_checksum none
        · exact absurd hv h2.2
        · rfl
  · intro hp hv1 hv2 hak hsq
    unfold await_ack_step
    rw [if_neg (by simp [hp]), if_neg (by simp [hv1, hv2]),
        if_neg (by simp [server_after_synack, hak, hsq])]

/-- **C8** witness: with server state `seq = 11, ack = 21` after SynAck, an
Ack carrying `ack = 100 ≠ 11` leaves the connection unchanged, and a
checksum-valid Ack carrying `seq = 21, ack = 11` opens it. -/
theorem ack_mismatch_preserves_connection_witness :
    await_ack_step (server_after_synack 10 20) ⟨21, 100, PType.Ack, 35, 70⟩ =
      server_after_synack 10 20 ∧
    await_ack_step (server_after_synack 10 20) ⟨21, 11, PType.Ack, 35, 70⟩ =
      { server_after_synack 10 20 with is_open := true } :=
  ⟨(ack_mismatch_preserves_connection 10 20 ⟨21, 100, PType.Ack, 35, 70⟩).2.1
      (Or.inl (by decide)),
   (ack_mismatch_preserves_connection 10 20 ⟨21, 11, PType.Ack, 35, 70⟩).2.2.2
      rfl (by decide) (by decide) rfl rfl⟩

/-- **C10**: every slice index the payload folding loops perform is within
bounds and every `is_some`-guarded unchecked unwrap sees a present value: the
checked variants of `calculate_checksum` and `packet_to_binary`, in which
each access returns an `Option` with an explicit failure branch, never fail
and compute exactly the unchecked functions. -/
theorem checked_variants_never_fail (seq ack : Nat) (p : PType) (hc : Nat)
    (data : Option (List Nat)) (h : Header) :
    calculate_checksum_checked seq ack p hc data =
      some (Header.calculate_checksum seq ack p hc data) ∧
    packet_to_binary_checked h data = some (packet_to_binary h data) := by
  constructor
  · cases data with
    | none => rfl
    | some dt =>
        simp only [calculate_checksum_checked, Header.calculate_checksum,
          Option.isSome_some, if_pos]
        by_cases hpar : dt.length % 2 = 0
        · rw [if_pos hpar, if_pos hpar]
          exact pairLoopChecked_eq dt dt.length 0 dt.length _ (by omega) (by omega) hpar le_rfl
        · rw [if_neg hpar, if_neg hpar]
          have hlen1 : 1 ≤ dt.length := by
            rcases dt with _ | ⟨x, xs⟩
            · simp at hpar
            · simp
          rw [pairLoopChecked_eq dt dt.length 0 (dt.length - 1) _ (by omega) (by omega)
              (by omega) (by omega),
            get?_eq_some_getD dt (dt.length - 1) (by omega)]
  · cases data with
    | none => simp [packet_to_binary_checked, packet_to_binary]
    | some dt => rfl

end RUDP
